import Mathlib

/-!
Verification development for the pyriid repository.

The two source files under verification are `riid/cli/main.py` (the CLI:
`validate_ext_is_supported`, `identify`, `detect`) and
`riid/data/synthetic/seed.py` (`SeedSynthesizer` and `SeedMixer`).

Python floats and numpy values are embedded as rationals (`ℚ`); all the
scenarios exercised here involve only exact arithmetic.  File contents,
the GADRAS API and the numpy global random generator are external
collaborators: they are embedded as explicit parameters (key/value stores,
streams of draws, abstract outcomes), so that the control flow written in
the repository's own code is what the theorems are about.
-/

/-! ### pathlib and extension validation (riid/cli/main.py) -/

/-- Embedding of `pathlib`: the final path component (text after the last
slash), as used by `Path.suffix`. -/
def lastComponent (cs : List Char) : List Char :=
  (cs.reverse.takeWhile (fun c => c ≠ '/')).reverse

/-- Embedding of `pathlib.PurePath.suffix`: the file extension of the final
component, i.e. `name[i:]` for `i = name.rfind(".")` when `0 < i < len(name) - 1`,
else the empty string. -/
def pathSuffix (p : String) : String :=
  let name := lastComponent p.toList
  let rev := name.reverse
  let after := rev.takeWhile (fun c => c ≠ '.')
  if after.length < rev.length ∧ 0 < name.length - after.length - 1 ∧ 0 < after.length then
    String.mk ('.' :: after.reverse)
  else
    ""

/-- `SUPPORTED_FILE_TYPES = [".pcf", ".h5"]` from `riid/cli/main.py`. -/
def SUPPORTED_FILE_TYPES : List String := [".pcf", ".h5"]

/-- The Python exception kinds raised by the embedded code. -/
inductive PyErr
  | valueError
  | keyError
deriving DecidableEq

/-- Embedding of `validate_ext_is_supported` (riid/cli/main.py lines 13-17):
raises `ValueError` when the path suffix is not in `SUPPORTED_FILE_TYPES`. -/
def validate_ext_is_supported (file_path : String) : Except PyErr Unit :=
  if pathSuffix file_path ∈ SUPPORTED_FILE_TYPES then Except.ok ()
  else Except.error PyErr.valueError

/-- Observable effects of the CLI commands that matter for ordering claims:
reading an input file, loading a model, constructing the event detector. -/
inductive Effect
  | readFile (p : String)
  | loadModel (p : String)
  | constructDetector
deriving DecidableEq

/-- Arguments of the `detect` command that drive its prologue
(input paths and the two optional output-path overrides). -/
structure DetectArgs where
  gross_path : String
  bg_path : String
  event_gross_file_path : Option String
  event_bg_file_path : Option String
deriving DecidableEq

/-- Embedding of `Path(path.parent, f"{path.stem}_events{path.suffix}")`
from `detect`: the default output path keeps the directory and extension of
the input path and inserts `_events` before the extension. -/
def defaultEventsPath (p : String) : String :=
  String.mk (p.toList.take (p.toList.length - (pathSuffix p).toList.length))
    ++ "_events" ++ pathSuffix p

/-- Embedding of the prologue of `detect` (riid/cli/main.py lines 119-188):
validate both input paths, resolve the two output paths (validating any
caller-supplied override), reject ambiguous output formats, and only then
read the two input files and construct the detector.  The returned effect
list records, in order, the file reads and the detector construction. -/
def detectPrologue (a : DetectArgs) : Except PyErr (List Effect) := do
  _ ← validate_ext_is_supported a.gross_path
  _ ← validate_ext_is_supported a.bg_path
  let paths ← (match a.event_gross_file_path, a.event_bg_file_path with
    | none, none =>
        Except.ok (defaultEventsPath a.gross_path, defaultEventsPath a.bg_path)
    | none, some b => do
        _ ← validate_ext_is_supported b
        Except.ok (defaultEventsPath a.gross_path, b)
    | some g, none => do
        _ ← validate_ext_is_supported g
        Except.ok (g, defaultEventsPath a.bg_path)
    | some g, some b => do
        _ ← validate_ext_is_supported g
        _ ← validate_ext_is_supported b
        Except.ok (g, b))
  if pathSuffix paths.1 ≠ pathSuffix paths.2 then
    Except.error PyErr.valueError
  else
    Except.ok [Effect.readFile a.gross_path, Effect.readFile a.bg_path,
               Effect.constructDetector]

/-- Embedding of the prologue of `identify` (riid/cli/main.py lines 54-78):
validate the model and data paths, then load the model and read the data. -/
def identifyPrologue (model_path data_path : String) : Except PyErr (List Effect) := do
  _ ← validate_ext_is_supported model_path
  _ ← validate_ext_is_supported data_path
  Except.ok [Effect.loadModel model_path, Effect.readFile data_path]

/-! ### click option types (riid/cli/main.py) -/

/-- The `click` parameter types used by the `detect` command's options. -/
inductive ClickParamType
  | intP
  | floatP
  | pathP
deriving DecidableEq

/-- A `click` option declaration: its name and parameter type. -/
structure ClickOption where
  name : String
  ptype : ClickParamType
deriving DecidableEq

/-- Embedding of the declaration at riid/cli/main.py lines 100-103:
`click.option("--tolerable_false_alarms_per_day", type=int, default=1)`. -/
def tolerableFalseAlarmsPerDayOption : ClickOption :=
  { name := "tolerable_false_alarms_per_day", ptype := ClickParamType.intP }

/-- Default value of the `tolerable_false_alarms_per_day` option. -/
def tolerableFalseAlarmsPerDayDefault : Int := 1

/-- Value of a decimal digit character. -/
def digitVal (c : Char) : Nat := c.toNat - 48

/-- Numeric value of a digit string. -/
def digitsToNat (cs : List Char) : Nat :=
  cs.foldl (fun acc c => 10 * acc + digitVal c) 0

/-- Embedding of Python's `int(str)` as used by click's `int` parameter type
to convert a command-line token: optional sign followed by a nonempty run of
decimal digits; anything else (for example a string containing a decimal
point) raises and the option value is rejected. -/
def pyIntOfString (s : String) : Option Int :=
  let cs := (s.toList.dropWhile (fun c => c = ' ')).reverse
  let cs := (cs.dropWhile (fun c => c = ' ')).reverse
  match cs with
  | '-' :: rest =>
      if 0 < rest.length ∧ rest.all Char.isDigit then
        some (-(digitsToNat rest : Int))
      else none
  | '+' :: rest =>
      if 0 < rest.length ∧ rest.all Char.isDigit then
        some ((digitsToNat rest : Int))
      else none
  | rest =>
      if 0 < rest.length ∧ rest.all Char.isDigit then
        some ((digitsToNat rest : Int))
      else none

/-- click's conversion of a token for an option of type `int`. -/
def clickConvertInt (s : String) : Option Int := pyIntOfString s

/-! ### The detect command's detector construction and measurement ids -/

/-- The values bound by the `detect` command's CLI surface: the seven
detector options (riid/cli/main.py lines 87-106), plus the positional paths
and output overrides. -/
structure DetectOptions where
  long_term_duration : ℚ
  short_term_duration : ℚ
  pre_event_duration : ℚ
  max_event_duration : ℚ
  post_event_duration : ℚ
  tolerable_false_alarms_per_day : ℤ
  anomaly_threshold_update_interval : ℚ
  gross_path : String
  bg_path : String
  event_gross_file_path : Option String
  event_bg_file_path : Option String
deriving DecidableEq

/-- Configuration held by a constructed `PoissonNChannelEventDetector`
(the seven construction parameters, in declaration order). -/
structure DetectorConfig where
  long_term_duration : ℚ
  short_term_duration : ℚ
  pre_event_duration : ℚ
  max_event_duration : ℚ
  post_event_duration : ℚ
  tolerable_false_alarms_per_day : ℚ
  anomaly_threshold_update_interval : ℚ
deriving DecidableEq

/-- Embedding of the construction site at riid/cli/main.py lines 180-188:
`PoissonNChannelEventDetector` is applied positionally to exactly the seven
option values, in source order. -/
def detectBuildDetector (o : DetectOptions) : DetectorConfig :=
  { long_term_duration := o.long_term_duration,
    short_term_duration := o.short_term_duration,
    pre_event_duration := o.pre_event_duration,
    max_event_duration := o.max_event_duration,
    post_event_duration := o.post_event_duration,
    tolerable_false_alarms_per_day := (o.tolerable_false_alarms_per_day : ℚ),
    anomaly_threshold_update_interval := o.anomaly_threshold_update_interval }

/-- Embedding of one of `detect`'s ingestion loops (riid/cli/main.py lines
191-228): each iteration calls `add_measurement` with the current
`measurement_id` and then increments it.  `addMeasurementIds s n` is the list
of ids passed during `n` iterations starting from id `s`. -/
def addMeasurementIds : Nat → Nat → List Nat
  | _, 0 => []
  | s, n + 1 => s :: addMeasurementIds (s + 1) n

/-- The ids passed to `add_measurement` across the three phases of `detect`:
`w` warm-up fill iterations starting from `measurement_id = 0`, then `n`
gross-data iterations, then `d` trailing event-drain iterations, the counter
carrying over from phase to phase. -/
def detectMeasurementIds (w n d : Nat) : List Nat :=
  addMeasurementIds 0 w ++ addMeasurementIds w n ++ addMeasurementIds (w + n) d

/-! ### The event detector, modelled from the spec

`riid.anomaly.PoissonNChannelEventDetector` is imported by
`riid/cli/main.py` but its module is not part of the sources under
verification; the definitions below are modelled from the spec (sections
3, 4.1 and 4.4). -/

/-- Modelled from the spec: a Measurement is an opaque (monotonically
increasing) identifier, a vector of channel counts, and a live-time scalar.
The missing code is `riid.anomaly`'s measurement handling. -/
structure Measurement where
  mid : ℕ
  counts : List ℚ
  liveTime : ℚ
deriving DecidableEq

/-- Pointwise sum of two equal-length channel-count vectors. -/
def vecAdd (a b : List ℚ) : List ℚ := List.zipWith (· + ·) a b

/-- A channel-count vector scaled by a scalar. -/
def vecScale (c : ℚ) (a : List ℚ) : List ℚ := a.map (fun x => c * x)

/-- Sum of a list of equal-length channel-count vectors. -/
def vecSum : List (List ℚ) → List ℚ
  | [] => []
  | [v] => v
  | v :: rest => vecAdd v (vecSum rest)

/-- Modelled from the spec (section 3): a Rolling Window is an ordered
collection of measurements, oldest first. -/
structure Window where
  entries : List Measurement
deriving DecidableEq

/-- Accumulated live time of a rolling window. -/
def Window.liveTime (w : Window) : ℚ :=
  (w.entries.map Measurement.liveTime).sum

/-- Modelled from the spec (sections 3 and 4.1): after insertion, evict the
oldest entries while the accumulated live time exceeds the configured
duration, but never empty the window below one entry. -/
def evictOldest (d : ℚ) : List Measurement → List Measurement
  | [] => []
  | [m] => [m]
  | m :: m2 :: rest =>
      if d < ((m :: m2 :: rest).map Measurement.liveTime).sum then
        evictOldest d (m2 :: rest)
      else
        m :: m2 :: rest

/-- Modelled from the spec (section 4.1): `push` appends the measurement and
then evicts the oldest entries down to the configured duration. -/
def Window.push (d : ℚ) (w : Window) (m : Measurement) : Window :=
  ⟨evictOldest d (w.entries ++ [m])⟩

/-- Accumulated per-channel counts of a window. -/
def Window.spectrum (w : Window) : List ℚ :=
  vecSum (w.entries.map Measurement.counts)

/-- Per-channel count rate of a window (counts divided by live time). -/
def windowRate (w : Window) : List ℚ :=
  vecScale (w.liveTime)⁻¹ w.spectrum

/-- Modelled from the spec (section 4.4): the lifecycle phases. -/
inductive DetectorPhase
  | WARMING_UP
  | IDLE
  | IN_EVENT
deriving DecidableEq

/-- The event accumulator: gross spectrum, live time and contributing
measurement ids of the event in progress. -/
structure EventAccum where
  gross : List ℚ
  liveTime : ℚ
  mids : List ℕ
deriving DecidableEq

/-- The empty event accumulator. -/
def emptyAccum : EventAccum := ⟨[], 0, []⟩

/-- Fold one measurement into the event accumulator. -/
def accumAdd (a : EventAccum) (m : Measurement) : EventAccum :=
  ⟨vecAdd a.gross m.counts, a.liveTime + m.liveTime, a.mids ++ [m.mid]⟩

/-- The accumulator holding exactly the given measurements, in order. -/
def accumOfMeasurements (ms : List Measurement) : EventAccum :=
  ⟨vecSum (ms.map Measurement.counts),
   (ms.map Measurement.liveTime).sum,
   ms.map Measurement.mid⟩

/-- Modelled from the spec (sections 3 and 4.4): the detector state — the
lifecycle phase, the two rolling windows, the retained pre-event history,
the long-term rate frozen at event start, the event accumulator, its
snapshot taken when hysteresis began, and the consecutive-non-anomalous
live-time counter. -/
structure DetectorState where
  phase : DetectorPhase
  longTerm : Window
  shortTerm : Window
  recent : Window
  frozenRate : List ℚ
  accum : EventAccum
  accumAtHyst : EventAccum
  hystLiveTime : ℚ
  hystActive : Bool
deriving DecidableEq

/-- Modelled from the spec (sections 3 and 6): a completed-event record is
the tuple (gross_spectrum, background_spectrum_scaled_to_event_live_time,
event_live_time, measurement_ids), exactly as unpacked by the caller at
riid/cli/main.py lines 235-248. -/
def EventRecord : Type := List ℚ × List ℚ × ℚ × List ℕ

/-- The anomaly verdict, kept abstract: any function of the incoming
measurement and the two windows (the spec's Anomaly Classifier is a pure
function of the windows and calibrated thresholds). -/
def Classifier : Type := Measurement → Window → Window → Bool

/-- Query from the spec (sections 4.1 and 6): accumulated long-term live
time divided by the configured long-term duration. -/
def background_fill_fraction (cfg : DetectorConfig) (s : DetectorState) : ℚ :=
  s.longTerm.liveTime / cfg.long_term_duration

/-- The record emitted at event closure: the accumulated gross spectrum, the
frozen long-term rate scaled by the event live time, the event live time,
and the contributing measurement ids. -/
def closeRecord (s : DetectorState) (a : EventAccum) : EventRecord :=
  (a.gross, vecScale a.liveTime s.frozenRate, a.liveTime, a.mids)

/-- The post-closure state: back to `IDLE` with the event accumulator
reset. -/
def closeEventState (s : DetectorState) : DetectorState :=
  { s with phase := DetectorPhase.IDLE, accum := emptyAccum,
           accumAtHyst := emptyAccum, hystLiveTime := 0, hystActive := false }

/-- Modelled from the spec (section 4.4): `ingest` drives the lifecycle
state machine and returns at most one completed-event record.
In `WARMING_UP` the measurement is pushed only into the long-term window and
the phase flips to `IDLE` once the fill fraction reaches 1.  In `IDLE` an
anomalous measurement starts an event seeded with the retained pre-event
history; otherwise the windows are updated.  In `IN_EVENT` measurements are
accumulated; a run of non-anomalous measurements of accumulated live time
reaching `post_event_duration` closes the event with the accumulator as it
stood when hysteresis began, and an accumulated event duration reaching
`max_event_duration` forces closure. -/
def ingest (cfg : DetectorConfig) (cl : Classifier) (s : DetectorState)
    (m : Measurement) : DetectorState × Option EventRecord :=
  match s.phase with
  | DetectorPhase.WARMING_UP =>
      let lt2 := s.longTerm.push cfg.long_term_duration m
      ({ s with longTerm := lt2,
                phase :=
                  if 1 ≤ lt2.liveTime / cfg.long_term_duration then
                    DetectorPhase.IDLE
                  else
                    DetectorPhase.WARMING_UP }, none)
  | DetectorPhase.IDLE =>
      if cl m s.shortTerm s.longTerm then
        ({ s with phase := DetectorPhase.IN_EVENT,
                  frozenRate := windowRate s.longTerm,
                  accum := accumOfMeasurements (s.recent.entries ++ [m]),
                  accumAtHyst := emptyAccum,
                  hystLiveTime := 0,
                  hystActive := false,
                  shortTerm := s.shortTerm.push cfg.short_term_duration m }, none)
      else
        ({ s with longTerm := s.longTerm.push cfg.long_term_duration m,
                  shortTerm := s.shortTerm.push cfg.short_term_duration m,
                  recent := s.recent.push cfg.pre_event_duration m }, none)
  | DetectorPhase.IN_EVENT =>
      if cl m s.shortTerm s.longTerm then
        let a := accumAdd s.accum m
        if cfg.max_event_duration ≤ a.liveTime then
          (closeEventState s, some (closeRecord s a))
        else
          ({ s with accum := a, accumAtHyst := emptyAccum,
                    hystLiveTime := 0, hystActive := false,
                    shortTerm := s.shortTerm.push cfg.short_term_duration m }, none)
      else
        let snap := if s.hystActive then s.accumAtHyst else s.accum
        let a := accumAdd s.accum m
        let h := s.hystLiveTime + m.liveTime
        if cfg.post_event_duration ≤ h then
          (closeEventState s, some (closeRecord s snap))
        else if cfg.max_event_duration ≤ a.liveTime then
          (closeEventState s, some (closeRecord s a))
        else
          ({ s with accum := a, accumAtHyst := snap,
                    hystLiveTime := h, hystActive := true,
                    shortTerm := s.shortTerm.push cfg.short_term_duration m }, none)

/-- One driver step: ingest a measurement, appending any emitted record. -/
def stepRun (cfg : DetectorConfig) (cl : Classifier)
    (p : DetectorState × List EventRecord) (m : Measurement) :
    DetectorState × List EventRecord :=
  let r := ingest cfg cl p.1 m
  (r.1, p.2 ++ r.2.toList)

/-- Run the detector over a measurement sequence, collecting every emitted
completed-event record. -/
def runDetector (cfg : DetectorConfig) (cl : Classifier) (s : DetectorState)
    (ms : List Measurement) : DetectorState × List EventRecord :=
  ms.foldl (stepRun cfg cl) (s, [])

/-- The freshly constructed detector: `WARMING_UP` with empty windows. -/
def initDetectorState : DetectorState :=
  ⟨DetectorPhase.WARMING_UP, ⟨[]⟩, ⟨[]⟩, ⟨[]⟩, [], emptyAccum, emptyAccum, 0, false⟩

/-- A warm-up-phase state: only the long-term window is populated. -/
def warmState (es : List Measurement) (ph : DetectorPhase) : DetectorState :=
  ⟨ph, ⟨es⟩, ⟨[]⟩, ⟨[]⟩, [], emptyAccum, emptyAccum, 0, false⟩

/-! ### SeedMixer ratio sampling (riid/data/synthetic/seed.py) -/

/-- Embedding of `np.random.uniform(lo, hi)` given the underlying draw
`u ∈ [0, 1)` of the global generator: numpy computes `lo + (hi - lo) * u`
(also when `hi < lo`). -/
def npUniform (lo hi u : ℚ) : ℚ := lo + (hi - lo) * u

/-- Embedding of the ratio-drawing loop of `SeedMixer.generate`
(riid/data/synthetic/seed.py lines 346-351): for `ratio_idx` running over
the first `mixture_size - 1` slots,
`ratios[ratio_idx] = np.random.uniform(min_source_contribution,
1 - sum(ratios) - (mixture_size - ratio_idx + 1) * min_source_contribution)`.
The hidden global-generator state is the list `us` of underlying draws;
`acc` is the list of ratios drawn so far. -/
def genDraws (m : ℕ) (c : ℚ) : List ℚ → List ℚ → List ℚ
  | [], acc => acc
  | u :: us, acc =>
      genDraws m c us
        (acc ++ [npUniform c (1 - acc.sum - ((m : ℚ) - (acc.length : ℚ) + 1) * c) u])

/-- Embedding of the per-row ratio computation of `SeedMixer.generate`
(riid/data/synthetic/seed.py lines 346-352): draw `mixture_size - 1` ratios
from the global generator (hidden state `us`), then set the final ratio to
`1 - sum(ratios)`. -/
def seedMixerRatios (mixture_size : ℕ) (min_source_contribution : ℚ)
    (us : List ℚ) : List ℚ :=
  let ds := genDraws mixture_size min_source_contribution us []
  ds ++ [1 - ds.sum]

/-- The preconditions asserted by `SeedMixer.__init__`
(riid/data/synthetic/seed.py lines 238-240). -/
def seedMixerPreconditions (mixture_size : ℕ) (min_source_contribution : ℚ) : Prop :=
  2 ≤ mixture_size ∧ (1 : ℚ) / 10 ≤ min_source_contribution ∧
    (mixture_size : ℚ) * min_source_contribution < 1

/-! ### SeedSynthesizer.generate parameter restoration
(riid/data/synthetic/seed.py) -/

/-- The value types recorded in `DETECTOR_PARAMS[k]["type"]`. -/
inductive VType
  | floatT
  | intT
  | otherT
deriving DecidableEq

/-- The GADRAS API surface that `SeedSynthesizer` reads: the key list
returned by `detectorGetParameters().Keys`, the `DETECTOR_PARAMS` table
(key to value type), and the `INJECT_PARAMS` key set. -/
structure GadrasEnv where
  allKeys : List String
  dparams : String → Option VType
  injectKeys : List String

/-- Embedding of Python's `str.upper()` on ASCII parameter keys. -/
def strUpper (s : String) : String :=
  String.mk (s.toList.map Char.toUpper)

/-- Update one key of the detector-parameter store. -/
def storeSet (s : String → ℚ) (k : String) (v : ℚ) : String → ℚ :=
  fun k2 => if k2 = k then v else s k2

/-- Embedding of Python's `int(v)`: truncation toward zero. -/
def truncQ (v : ℚ) : ℚ :=
  if 0 ≤ v then ((⌊v⌋ : ℤ) : ℚ) else ((⌈v⌉ : ℤ) : ℚ)

/-- Embedding of `SeedSynthesizer._set_detector_parameters`
(riid/data/synthetic/seed.py lines 76-95): for each `(k, v)` pair, skip keys
in `INJECT_PARAMS`; look up `DETECTOR_PARAMS[k.upper()]["type"]` (a missing
key raises `KeyError`, leaving the parameters set so far in place); set
float- and int-typed parameters with the corresponding conversion; leave
other-typed parameters unset.  Returns the resulting store and the raised
exception, if any. -/
def setParamsLoop (env : GadrasEnv) :
    (String → ℚ) → List (String × ℚ) → (String → ℚ) × Option PyErr
  | s, [] => (s, none)
  | s, (k, v) :: rest =>
      let ku := strUpper k
      if ku ∈ env.injectKeys then
        setParamsLoop env s rest
      else
        match env.dparams ku with
        | none => (s, some PyErr.keyError)
        | some VType.floatT => setParamsLoop env (storeSet s ku v) rest
        | some VType.intT => setParamsLoop env (storeSet s ku (truncQ v)) rest
        | some VType.otherT => setParamsLoop env s rest

/-- Embedding of `SeedSynthesizer._get_detector_parameters`
(riid/data/synthetic/seed.py lines 68-74): read every key of
`detectorGetParameters().Keys` that appears in `DETECTOR_PARAMS`. -/
def getDetectorParameters (env : GadrasEnv) (s : String → ℚ) :
    List (String × ℚ) :=
  env.allKeys.filterMap
    (fun k => if (env.dparams k).isSome then some (k, s k) else none)

/-- Embedding of the detector-parameter state flow of
`SeedSynthesizer.generate` with `dry_run=False`
(riid/data/synthetic/seed.py lines 133-224): record the original
parameters; inside the `try` block set the new parameters and run the
injects (whose outcome — `none` for success or a raised exception — is the
`injectOutcome` parameter, since the injectors and file reads are external);
on any exception restore the original parameters and re-raise; on success
restore the original parameters.  Returns the final parameter store and the
exception propagated to the caller, if any. -/
def seedSynthGenerate (env : GadrasEnv) (s0 : String → ℚ)
    (newParams : List (String × ℚ)) (injectOutcome : Option PyErr) :
    (String → ℚ) × Option PyErr :=
  let orig := getDetectorParameters env s0
  match setParamsLoop env s0 newParams, injectOutcome with
  | (s1, some e), _ =>
      let r2 := setParamsLoop env s1 orig
      (r2.1, some (r2.2.getD e))
  | (s1, none), some e =>
      let r2 := setParamsLoop env s1 orig
      (r2.1, some (r2.2.getD e))
  | (s1, none), none =>
      let r2 := setParamsLoop env s1 orig
      (r2.1, r2.2)

/-! ### Concrete scenario data used by counterexamples and witnesses -/

/-- A classifier that never flags an anomaly (irrelevant during warm-up). -/
def clNever : Classifier := fun _ _ _ => false

/-- A configuration with a 10-second long-term duration. -/
def cfgTen : DetectorConfig := ⟨10, 1, 5, 120, 3/2, 1, 60⟩

/-- A configuration with a 2-second long-term duration. -/
def cfgTwo : DetectorConfig := ⟨2, 1, 1, 1, 1, 1, 1⟩

/-- A 9-second-live-time measurement. -/
def mA : Measurement := ⟨0, [0], 9⟩

/-- A 2-second-live-time measurement. -/
def mB : Measurement := ⟨1, [0], 2⟩

/-- A 1-second-live-time measurement with id 0. -/
def mC : Measurement := ⟨0, [0], 1⟩

/-- A 1-second-live-time measurement with id 1. -/
def mD : Measurement := ⟨1, [0], 1⟩

/-- Concrete `detect` option bindings (first variant). -/
def optsA : DetectOptions :=
  ⟨120, 1, 5, 120, 3/2, 1, 60, "g.pcf", "b.pcf", none, none⟩

/-- Concrete `detect` option bindings: same seven detector parameters as
`optsA`, different paths. -/
def optsB : DetectOptions :=
  ⟨120, 1, 5, 120, 3/2, 1, 60, "other.h5", "bg2.h5", some "o.h5", none⟩

/-- A one-key GADRAS environment: key `A`, float-typed, not an inject
parameter. -/
def envW : GadrasEnv :=
  ⟨["A"], fun k => if k = "A" then some VType.floatT else none, []⟩

/-- A concrete initial detector-parameter store. -/
def s0W : String → ℚ := fun _ => 0

/-! ### Helper lemmas -/

theorem addMeasurementIds_eq_range' (n s : ℕ) :
    addMeasurementIds s n = List.range' s n := by
  induction n generalizing s with
  | zero => rfl
  | succ n ih => simp [addMeasurementIds, List.range'_succ, ih]

theorem foldl_stepRun_length (cfg : DetectorConfig) (cl : Classifier) :
    ∀ (ms : List Measurement) (p : DetectorState × List EventRecord),
    (List.foldl (stepRun cfg cl) p ms).2.length ≤ p.2.length + ms.length := by
  intro ms
  induction ms with
  | nil => intro p; simp
  | cons m rest ih =>
      intro p
      calc (List.foldl (stepRun cfg cl) p (m :: rest)).2.length
          = (List.foldl (stepRun cfg cl) (stepRun cfg cl p m) rest).2.length := by
            simp [List.foldl_cons]
        _ ≤ (stepRun cfg cl p m).2.length + rest.length := ih _
        _ ≤ (p.2.length + 1) + rest.length := by
            have : (stepRun cfg cl p m).2.length ≤ p.2.length + 1 := by
              simp only [stepRun, List.length_append]
              have : ((ingest cfg cl p.1 m).2.toList).length ≤ 1 := by
                cases (ingest cfg cl p.1 m).2 <;> simp
              omega
            omega
        _ = p.2.length + (m :: rest).length := by simp; omega

theorem evictOldest_of_le (d : ℚ) (l : List Measurement)
    (h : (l.map Measurement.liveTime).sum ≤ d) : evictOldest d l = l := by
  match l with
  | [] => rfl
  | [m] => rfl
  | m :: m2 :: rest =>
      rw [evictOldest, if_neg (not_lt.mpr h)]

theorem sum_map_liveTime_uniform (lt : ℚ) :
    ∀ l : List Measurement, (∀ m ∈ l, m.liveTime = lt) →
    (l.map Measurement.liveTime).sum = (l.length : ℚ) * lt := by
  intro l
  induction l with
  | nil => simp
  | cons m rest ih =>
      intro h
      have hm : m.liveTime = lt := h m (List.mem_cons_self m rest)
      have hr := ih (fun x hx => h x (List.mem_cons_of_mem m hx))
      simp [hm, hr]
      ring

/-! ### Claim C3 -/

/-- C3 counterexample: the claim says the external interface accepts
`tolerable_false_alarms_per_day` as a fractional positive value such as
0.01, but the CLI declares the option with click type `int`, whose
conversion (Python `int(str)`) rejects the token `0.01`. -/
theorem C3_counterexample :
    tolerableFalseAlarmsPerDayOption.ptype = ClickParamType.intP ∧
    clickConvertInt "0.01" = none :=
  ⟨rfl, rfl⟩

/-- C3 (amended): the external interface accepts
`tolerable_false_alarms_per_day` only as an integer (click `type=int`,
default 1); arbitrarily low positive integers such as 1 are accepted, while
fractional values such as 0.01 are rejected by the option's conversion. -/
theorem C3_amended :
    tolerableFalseAlarmsPerDayOption.name = "tolerable_false_alarms_per_day" ∧
    tolerableFalseAlarmsPerDayOption.ptype = ClickParamType.intP ∧
    tolerableFalseAlarmsPerDayDefault = 1 ∧
    clickConvertInt "1" = some 1 ∧
    clickConvertInt "0.01" = none :=
  ⟨rfl, rfl, rfl, rfl, rfl⟩

/-! ### Claim C4 -/

/-- C4: the detector is constructed from exactly the seven configuration
parameters of the external interface, in source order
(long_term_duration, short_term_duration, pre_event_duration,
max_event_duration, post_event_duration, tolerable_false_alarms_per_day,
anomaly_threshold_update_interval), and from no other inputs: the
constructed configuration's fields equal the corresponding options, and two
option bindings agreeing on those seven values yield identical detectors
regardless of every other option. -/
theorem C4_construction :
    (∀ o : DetectOptions,
      (detectBuildDetector o).long_term_duration = o.long_term_duration ∧
      (detectBuildDetector o).short_term_duration = o.short_term_duration ∧
      (detectBuildDetector o).pre_event_duration = o.pre_event_duration ∧
      (detectBuildDetector o).max_event_duration = o.max_event_duration ∧
      (detectBuildDetector o).post_event_duration = o.post_event_duration ∧
      (detectBuildDetector o).tolerable_false_alarms_per_day
        = (o.tolerable_false_alarms_per_day : ℚ) ∧
      (detectBuildDetector o).anomaly_threshold_update_interval
        = o.anomaly_threshold_update_interval) ∧
    (∀ o1 o2 : DetectOptions,
      o1.long_term_duration = o2.long_term_duration →
      o1.short_term_duration = o2.short_term_duration →
      o1.pre_event_duration = o2.pre_event_duration →
      o1.max_event_duration = o2.max_event_duration →
      o1.post_event_duration = o2.post_event_duration →
      o1.tolerable_false_alarms_per_day = o2.tolerable_false_alarms_per_day →
      o1.anomaly_threshold_update_interval = o2.anomaly_threshold_update_interval →
      detectBuildDetector o1 = detectBuildDetector o2) := by
  constructor
  · intro o
    exact ⟨rfl, rfl, rfl, rfl, rfl, rfl, rfl⟩
  · intro o1 o2 h1 h2 h3 h4 h5 h6 h7
    simp [detectBuildDetector, h1, h2, h3, h4, h5, h6, h7]

/-- C4 witness: two concrete option bindings differing only in paths produce
the same detector. -/
theorem C4_construction_witness :
    detectBuildDetector optsA = detectBuildDetector optsB :=
  C4_construction.2 optsA optsB rfl rfl rfl rfl rfl rfl rfl

/-! ### Claim C5 -/

/-- C5: the seed-mixing ratio sampler draws from the global numpy
random-number-generator state (modelled as the hidden draw stream, the
argument not present in `SeedMixer.generate`'s signature): with identical
explicit arguments (mixture_size 2, min_source_contribution 1/10), two
different hidden global states produce different outputs, so the output is
not a deterministic function of the explicit inputs. -/
theorem C5_global_rng :
    seedMixerRatios 2 (1/10) [0] = [1/10, 9/10] ∧
    seedMixerRatios 2 (1/10) [1/2] = [2/5, 3/5] ∧
    seedMixerRatios 2 (1/10) [0] ≠ seedMixerRatios 2 (1/10) [1/2] := by
  refine ⟨?_, ?_, ?_⟩ <;> norm_num [seedMixerRatios, genDraws, npUniform]

/-! ### Claim C7 -/

/-- C7: the `detect` command passes measurement ids to `add_measurement`
forming exactly the sequence 0, 1, 2, ... across the warm-up fill phase, the
gross-data detection loop and the trailing event-drain loop: for any
iteration counts `w`, `n`, `d` of the three loops, the ids are
`List.range (w + n + d)`, a strictly increasing sequence with no id reused
or skipped. -/
theorem C7_measurement_ids (w n d : ℕ) :
    detectMeasurementIds w n d = List.range (w + n + d) ∧
    List.Pairwise (· < ·) (detectMeasurementIds w n d) := by
  have h : detectMeasurementIds w n d = List.range (w + n + d) := by
    simp only [detectMeasurementIds, addMeasurementIds_eq_range',
      List.range_eq_range']
    rw [List.append_assoc, List.range'_append_1 w n d]
    rw [show List.range' w (d + n) = List.range' (0 + w) (d + n) by norm_num]
    rw [List.range'_append_1 0 w (d + n)]
    rw [show d + n + w = w + n + d by omega]
  refine ⟨h, ?_⟩
  rw [h]
  exact List.pairwise_lt_range (w + n + d)

/-! ### Claim C10 -/

/-- C10: under the constructor's asserted preconditions (mixture_size = 2,
min_source_contribution = 0.45 satisfies all three asserts), the ratio
computation of `SeedMixer.generate` at the legitimate hidden draw u = 1/2
produces the row [1/20, 19/20]: the ratios sum to exactly 1, but the first
ratio 1/20 is below min_source_contribution = 9/20, because the code's
uniform upper bound `1 - sum(ratios) - (mixture_size - ratio_idx + 1) *
min_source_contribution` (docstring: `- 1` in place of `+ 1`) falls below
the lower bound. -/
theorem C10_ratio_below_minimum :
    seedMixerPreconditions 2 (9/20) ∧
    (0 : ℚ) ≤ 1/2 ∧ (1/2 : ℚ) < 1 ∧
    seedMixerRatios 2 (9/20) [1/2] = [1/20, 19/20] ∧
    (seedMixerRatios 2 (9/20) [1/2]).sum = 1 ∧
    (1/20 : ℚ) < 9/20 := by
  refine ⟨⟨le_refl 2, by norm_num, by norm_num⟩, by norm_num, by norm_num, ?_, ?_, by norm_num⟩ <;>
    norm_num [seedMixerRatios, genDraws, npUniform]

/-! ### Claim C8 -/

/-- C8 counterexample: the claim says `detect` raises `ValueError` if and
only if a path's extension is not exactly `.pcf` or `.h5`, but with
`gross_path = a.pcf` and `bg_path = b.h5` — both extensions supported —
`detect` still raises `ValueError` (the resolved output paths have differing
suffixes, the ambiguous-output-format error at riid/cli/main.py lines
152-154). -/
theorem C8_counterexample :
    pathSuffix "a.pcf" ∈ SUPPORTED_FILE_TYPES ∧
    pathSuffix "b.h5" ∈ SUPPORTED_FILE_TYPES ∧
    detectPrologue ⟨"a.pcf", "b.h5", none, none⟩ = Except.error PyErr.valueError :=
  ⟨by decide, by decide, rfl⟩

/-- C8 (amended): `validate_ext_is_supported` raises `ValueError` exactly
when the path's extension is not exactly `.pcf` or `.h5` (case-sensitively,
so `.PCF` and `.H5` are rejected); `identify` succeeds exactly when both of
its paths pass that check; `detect` validates both input paths before any
file is read and before the detector is constructed, failing with
`ValueError` when either is unsupported — but `detect` can additionally
raise `ValueError` with both input extensions supported, when the resolved
output paths have differing suffixes. -/
theorem C8_amended :
    (∀ fp : String,
      validate_ext_is_supported fp = Except.ok () ↔
        pathSuffix fp ∈ SUPPORTED_FILE_TYPES) ∧
    (∀ fp : String, pathSuffix fp ∉ SUPPORTED_FILE_TYPES →
      validate_ext_is_supported fp = Except.error PyErr.valueError) ∧
    (validate_ext_is_supported "a.PCF" = Except.error PyErr.valueError ∧
     validate_ext_is_supported "a.H5" = Except.error PyErr.valueError) ∧
    (∀ a : DetectArgs,
      pathSuffix a.gross_path ∉ SUPPORTED_FILE_TYPES ∨
      pathSuffix a.bg_path ∉ SUPPORTED_FILE_TYPES →
      detectPrologue a = Except.error PyErr.valueError) ∧
    (∀ mp dp : String,
      identifyPrologue mp dp
        = Except.ok [Effect.loadModel mp, Effect.readFile dp] ↔
      (pathSuffix mp ∈ SUPPORTED_FILE_TYPES ∧
       pathSuffix dp ∈ SUPPORTED_FILE_TYPES)) := by
  refine ⟨?_, ?_, ⟨rfl, rfl⟩, ?_, ?_⟩
  · intro fp
    unfold validate_ext_is_supported
    split <;> simp_all
  · intro fp h
    simp [validate_ext_is_supported, h]
  · intro a h
    rcases h with h | h
    · simp [detectPrologue, validate_ext_is_supported, h, Bind.bind, Except.bind]
    · by_cases hg : pathSuffix a.gross_path ∈ SUPPORTED_FILE_TYPES
      · simp [detectPrologue, validate_ext_is_supported, h, hg, Bind.bind, Except.bind]
      · simp [detectPrologue, validate_ext_is_supported, hg, Bind.bind, Except.bind]
  · intro mp dp
    by_cases h1 : pathSuffix mp ∈ SUPPORTED_FILE_TYPES <;>
      by_cases h2 : pathSuffix dp ∈ SUPPORTED_FILE_TYPES <;>
        simp [identifyPrologue, validate_ext_is_supported, h1, h2, Bind.bind, Except.bind]

/-- C8 witness: the amended theorem applied to a concrete unsupported input
path — `detect` on `a.txt` fails with `ValueError` before any read or
construction. -/
theorem C8_amended_witness :
    detectPrologue ⟨"a.txt", "b.pcf", none, none⟩ = Except.error PyErr.valueError :=
  C8_amended.2.2.2.1 ⟨"a.txt", "b.pcf", none, none⟩ (Or.inl (by decide))

/-! ### Claim C2 -/

/-- C2: every call of the measurement-ingestion operation returns at most
one completed-event record (its result is an `Option`, and a run over `ms`
emits at most `ms.length` records), and an emitted record consists of
exactly the four components (gross_spectrum,
background_spectrum_scaled_to_event_live_time, event_live_time,
measurement_ids) in that order: it is
`(a.gross, vecScale a.liveTime s.frozenRate, a.liveTime, a.mids)` for the
closing accumulator `a`. -/
theorem C2_event_record :
    (∀ (cfg : DetectorConfig) (cl : Classifier) (s : DetectorState) (m : Measurement),
      (ingest cfg cl s m).2 = none ∨
      ∃ a : EventAccum, (ingest cfg cl s m).2 =
        some (a.gross, vecScale a.liveTime s.frozenRate, a.liveTime, a.mids)) ∧
    (∀ (cfg : DetectorConfig) (cl : Classifier) (s : DetectorState)
      (ms : List Measurement),
      (runDetector cfg cl s ms).2.length ≤ ms.length) := by
  constructor
  · intro cfg cl s m
    rcases s with ⟨ph, ltw, stw, rc, fr, ac, ah, hl, ha⟩
    cases ph with
    | WARMING_UP => left; rfl
    | IDLE =>
        left
        simp only [ingest]
        split <;> rfl
    | IN_EVENT =>
        simp only [ingest]
        split
        · split
          · right; exact ⟨_, rfl⟩
          · left; rfl
        · split
          · right; exact ⟨_, rfl⟩
          · split
            · right; exact ⟨_, rfl⟩
            · left; rfl
  · intro cfg cl s ms
    have := foldl_stepRun_length cfg cl ms (s, [])
    simpa [runDetector] using this

/-! ### Claim C1 -/

theorem ingest_warm (cfg : DetectorConfig) (cl : Classifier)
    (es : List Measurement) (m : Measurement)
    (hsum : ((es ++ [m]).map Measurement.liveTime).sum ≤ cfg.long_term_duration) :
    ingest cfg cl (warmState es DetectorPhase.WARMING_UP) m =
      (warmState (es ++ [m])
        (if 1 ≤ ((es ++ [m]).map Measurement.liveTime).sum / cfg.long_term_duration
         then DetectorPhase.IDLE else DetectorPhase.WARMING_UP), none) := by
  simp [ingest, warmState, Window.push, Window.liveTime,
    evictOldest_of_le _ _ hsum]

theorem warmRun_eq (cfg : DetectorConfig) (cl : Classifier) (lt : ℚ) (k : ℕ)
    (hlt : 0 < lt) (hk : 1 ≤ k) (hd : cfg.long_term_duration = (k : ℚ) * lt) :
    ∀ ms : List Measurement, (∀ m ∈ ms, m.liveTime = lt) → ms.length ≤ k →
    (runDetector cfg cl initDetectorState ms).1 =
      warmState ms
        (if ms.length < k then DetectorPhase.WARMING_UP else DetectorPhase.IDLE) := by
  intro ms
  induction ms using List.reverseRecOn with
  | nil =>
      intro _ _
      have h0 : 0 < k := hk
      simp [runDetector, initDetectorState, warmState, h0]
  | append_singleton ms m ih =>
      intro huni hlen
      have hm : m.liveTime = lt := huni m (by simp)
      have hms : ∀ x ∈ ms, x.liveTime = lt := fun x hx => huni x (by simp [hx])
      have hlen1 : ms.length + 1 ≤ k := by simpa using hlen
      have hlen0 : ms.length ≤ k := le_trans (Nat.le_succ _) hlen1
      have hltk : ms.length < k := hlen1
      have hprev : (runDetector cfg cl initDetectorState ms).1 =
          warmState ms DetectorPhase.WARMING_UP := by
        rw [ih hms hlen0, if_pos hltk]
      have hsumv : ((ms ++ [m]).map Measurement.liveTime).sum
          = ((ms.length + 1 : ℕ) : ℚ) * lt := by
        rw [sum_map_liveTime_uniform lt _ huni]
        simp
      have hkpos : (0 : ℚ) < (k : ℚ) := by
        exact_mod_cast Nat.lt_of_lt_of_le Nat.zero_lt_one hk
      have hsumle : ((ms ++ [m]).map Measurement.liveTime).sum
          ≤ cfg.long_term_duration := by
        rw [hsumv, hd]
        have : ((ms.length + 1 : ℕ) : ℚ) ≤ (k : ℚ) := by exact_mod_cast hlen1
        exact mul_le_mul_of_nonneg_right this hlt.le
      have hfrac : (1 ≤ ((ms ++ [m]).map Measurement.liveTime).sum
            / cfg.long_term_duration)
          ↔ (k ≤ ms.length + 1) := by
        rw [hsumv, hd, mul_div_mul_right _ _ (ne_of_gt hlt)]
        rw [one_le_div hkpos]
        exact_mod_cast Nat.cast_le
      have hstep : (runDetector cfg cl initDetectorState (ms ++ [m])).1 =
          (ingest cfg cl (runDetector cfg cl initDetectorState ms).1 m).1 := by
        simp [runDetector, List.foldl_append, stepRun]
      rw [hstep, hprev, ingest_warm cfg cl ms m hsumle]
      by_cases hc : k ≤ ms.length + 1
      · rw [if_pos (hfrac.mpr hc)]
        have : ¬ ((ms ++ [m]).length < k) := by simp; omega
        rw [if_neg this]
      · rw [if_neg (fun h => hc (hfrac.mp h))]
        have : (ms ++ [m]).length < k := by simp; omega
        rw [if_pos this]

/-- C1 counterexample: in the spec's own model of the detector (push with
eviction, fraction = accumulated long-term live time / configured duration),
with `long_term_duration = 10` and live times 9 then 2, both states are
still `WARMING_UP` but `background_fill_fraction` drops from 9/10 to 1/5:
it is not monotonically non-decreasing during `WARMING_UP`, refuting the
claim's "for every valid configuration". -/
theorem C1_counterexample :
    (runDetector cfgTen clNever initDetectorState [mA]).1.phase
      = DetectorPhase.WARMING_UP ∧
    (runDetector cfgTen clNever initDetectorState [mA, mB]).1.phase
      = DetectorPhase.WARMING_UP ∧
    background_fill_fraction cfgTen
      (runDetector cfgTen clNever initDetectorState [mA]).1 = 9/10 ∧
    background_fill_fraction cfgTen
      (runDetector cfgTen clNever initDetectorState [mA, mB]).1 = 1/5 ∧
    (1/5 : ℚ) < 9/10 := by
  norm_num [runDetector, stepRun, ingest, cfgTen, clNever, mA, mB,
    initDetectorState, Window.push, Window.liveTime, evictOldest,
    background_fill_fraction]

/-- C1 (amended): for runs of measurements with a constant live time `lt > 0`
whose long-term duration is an exact multiple `k * lt` (as in the caller,
which submits a fixed `gross_live_time` per measurement), the fill fraction
after `n ≤ k` ingests equals `n / k`: it lies in [0, 1], is monotonically
non-decreasing over prefixes during `WARMING_UP`, reaches exactly 1 at the
`k`-th ingest, and the phase first becomes `IDLE` exactly then.  For general
live-time patterns the fraction can decrease after an eviction and warm-up
need not complete (see the counterexample). -/
theorem C1_amended (cfg : DetectorConfig) (cl : Classifier) (lt : ℚ) (k : ℕ)
    (hlt : 0 < lt) (hk : 1 ≤ k) (hd : cfg.long_term_duration = (k : ℚ) * lt)
    (ms : List Measurement) (hms : ∀ m ∈ ms, m.liveTime = lt)
    (hn : ms.length ≤ k) (i j : ℕ) (hij : i ≤ j) :
    background_fill_fraction cfg (runDetector cfg cl initDetectorState ms).1
        = (ms.length : ℚ) / (k : ℚ) ∧
    0 ≤ background_fill_fraction cfg (runDetector cfg cl initDetectorState ms).1 ∧
    background_fill_fraction cfg (runDetector cfg cl initDetectorState ms).1 ≤ 1 ∧
    ((runDetector cfg cl initDetectorState ms).1.phase =
      if ms.length < k then DetectorPhase.WARMING_UP else DetectorPhase.IDLE) ∧
    (ms.length = k →
      background_fill_fraction cfg (runDetector cfg cl initDetectorState ms).1 = 1) ∧
    background_fill_fraction cfg
        (runDetector cfg cl initDetectorState (ms.take i)).1 ≤
      background_fill_fraction cfg
        (runDetector cfg cl initDetectorState (ms.take j)).1 := by
  have hkpos : (0 : ℚ) < (k : ℚ) := by
    exact_mod_cast Nat.lt_of_lt_of_le Nat.zero_lt_one hk
  have hfrac : ∀ l : List Measurement, (∀ m ∈ l, m.liveTime = lt) → l.length ≤ k →
      background_fill_fraction cfg (runDetector cfg cl initDetectorState l).1
        = (l.length : ℚ) / (k : ℚ) := by
    intro l hl hlk
    rw [warmRun_eq cfg cl lt k hlt hk hd l hl hlk]
    simp only [background_fill_fraction, warmState, Window.liveTime]
    rw [sum_map_liveTime_uniform lt _ hl, hd,
      mul_div_mul_right _ _ (ne_of_gt hlt)]
  have h1 := hfrac ms hms hn
  have htake : ∀ t : ℕ, (∀ m ∈ ms.take t, m.liveTime = lt) ∧ (ms.take t).length ≤ k :=
    fun t => ⟨fun m hm => hms m (List.mem_of_mem_take hm),
      le_trans (by simp only [List.length_take]; omega) hn⟩
  have hti := hfrac (ms.take i) (htake i).1 (htake i).2
  have htj := hfrac (ms.take j) (htake j).1 (htake j).2
  refine ⟨h1, ?_, ?_, ?_, ?_, ?_⟩
  · rw [h1]; positivity
  · rw [h1, div_le_one hkpos]; exact_mod_cast hn
  · rw [warmRun_eq cfg cl lt k hlt hk hd ms hms hn]
    rfl
  · intro hke; rw [h1, hke, div_self (ne_of_gt hkpos)]
  · rw [hti, htj]
    have hlen : (ms.take i).length ≤ (ms.take j).length := by
      simp only [List.length_take]
      omega
    exact div_le_div_of_nonneg_right (by exact_mod_cast hlen) hkpos.le

/-- C1 witness: the amended theorem at the concrete configuration with
long-term duration 2 = 2 * 1 and two 1-second measurements: the fraction
reaches exactly 1 and the phase is `IDLE`. -/
theorem C1_amended_witness :
    background_fill_fraction cfgTwo
        (runDetector cfgTwo clNever initDetectorState [mC, mD]).1
      = (([mC, mD] : List Measurement).length : ℚ) / ((2 : ℕ) : ℚ) ∧
    0 ≤ background_fill_fraction cfgTwo
        (runDetector cfgTwo clNever initDetectorState [mC, mD]).1 ∧
    background_fill_fraction cfgTwo
        (runDetector cfgTwo clNever initDetectorState [mC, mD]).1 ≤ 1 ∧
    ((runDetector cfgTwo clNever initDetectorState [mC, mD]).1.phase =
      if ([mC, mD] : List Measurement).length < 2 then DetectorPhase.WARMING_UP
      else DetectorPhase.IDLE) ∧
    (([mC, mD] : List Measurement).length = 2 →
      background_fill_fraction cfgTwo
        (runDetector cfgTwo clNever initDetectorState [mC, mD]).1 = 1) ∧
    background_fill_fraction cfgTwo
        (runDetector cfgTwo clNever initDetectorState (([mC, mD] : List Measurement).take 1)).1 ≤
      background_fill_fraction cfgTwo
        (runDetector cfgTwo clNever initDetectorState (([mC, mD] : List Measurement).take 2)).1 :=
  C1_amended cfgTwo clNever 1 2 (by norm_num) (by norm_num)
    (by norm_num [cfgTwo]) [mC, mD]
    (by intro m hm; fin_cases hm <;> rfl) (by norm_num) 1 2 (by norm_num)

/-! ### Claim C9 -/

theorem mem_getDetectorParameters (env : GadrasEnv) (s : String → ℚ)
    (p : String × ℚ) (hp : p ∈ getDetectorParameters env s) :
    p.1 ∈ env.allKeys ∧ (env.dparams p.1).isSome ∧ p.2 = s p.1 := by
  simp only [getDetectorParameters, List.mem_filterMap] at hp
  obtain ⟨k, hk, hf⟩ := hp
  by_cases hd : (env.dparams k).isSome
  · rw [if_pos hd] at hf
    cases hf
    exact ⟨hk, hd, rfl⟩
  · rw [if_neg hd] at hf
    cases hf

theorem setParamsLoop_restore (env : GadrasEnv) (s0 : String → ℚ)
    (hint : ∀ k, env.dparams k = some VType.intT → truncQ (s0 k) = s0 k) :
    ∀ (ps : List (String × ℚ)) (s : String → ℚ),
    (∀ p ∈ ps, p.2 = s0 p.1 ∧ (strUpper p.1) = p.1 ∧ (env.dparams p.1).isSome) →
    (setParamsLoop env s ps).2 = none ∧
    ∀ k : String,
      (((∃ p ∈ ps, p.1 = k) ∧ k ∉ env.injectKeys ∧
        (env.dparams k = some VType.floatT ∨ env.dparams k = some VType.intT)) →
        (setParamsLoop env s ps).1 k = s0 k) ∧
      (¬((∃ p ∈ ps, p.1 = k) ∧ k ∉ env.injectKeys ∧
        (env.dparams k = some VType.floatT ∨ env.dparams k = some VType.intT)) →
        (setParamsLoop env s ps).1 k = s k) := by
  intro ps
  induction ps with
  | nil =>
      intro s _
      refine ⟨rfl, ?_⟩
      intro k
      constructor
      · rintro ⟨⟨p, hp, _⟩, _, _⟩
        exact absurd hp (List.not_mem_nil p)
      · intro _
        rfl
  | cons hd tl ih =>
      intro s hps
      obtain ⟨k1, v1⟩ := hd
      have hhd := hps (k1, v1) (List.mem_cons_self _ _)
      have hv1 : v1 = s0 k1 := hhd.1
      have hku : (strUpper k1) = k1 := hhd.2.1
      have hds : (env.dparams k1).isSome := hhd.2.2
      have htl : ∀ p ∈ tl, p.2 = s0 p.1 ∧ (strUpper p.1) = p.1 ∧ (env.dparams p.1).isSome :=
        fun p hp => hps p (List.mem_cons_of_mem _ hp)
      by_cases hinj : k1 ∈ env.injectKeys
      · have hloop : setParamsLoop env s ((k1, v1) :: tl) = setParamsLoop env s tl := by
          simp [setParamsLoop, hku, hinj]
        obtain ⟨hnone, hpoint⟩ := ih s htl
        rw [hloop]
        refine ⟨hnone, ?_⟩
        intro k
        constructor
        · rintro ⟨⟨p, hp, hpk⟩, hkni, hfl⟩
          rcases List.mem_cons.mp hp with heq | hmem
          · exfalso
            apply hkni
            rw [← hpk, heq]
            exact hinj
          · exact (hpoint k).1 ⟨⟨p, hmem, hpk⟩, hkni, hfl⟩
        · intro hnc
          apply (hpoint k).2
          intro hc
          exact hnc ⟨⟨hc.1.choose, List.mem_cons_of_mem _ hc.1.choose_spec.1,
            hc.1.choose_spec.2⟩, hc.2⟩
      · cases hdp : env.dparams k1 with
        | none => rw [hdp] at hds; cases hds
        | some vt =>
          cases vt with
          | otherT =>
              have hloop : setParamsLoop env s ((k1, v1) :: tl) = setParamsLoop env s tl := by
                simp [setParamsLoop, hku, hinj, hdp]
              obtain ⟨hnone, hpoint⟩ := ih s htl
              rw [hloop]
              refine ⟨hnone, ?_⟩
              intro k
              constructor
              · rintro ⟨⟨p, hp, hpk⟩, hkni, hfl⟩
                rcases List.mem_cons.mp hp with heq | hmem
                · exfalso
                  have : p.1 = k1 := by rw [heq]
                  rw [this] at hpk
                  rw [← hpk, hdp] at hfl
                  rcases hfl with h | h <;> cases h
                · exact (hpoint k).1 ⟨⟨p, hmem, hpk⟩, hkni, hfl⟩
              · intro hnc
                apply (hpoint k).2
                intro hc
                exact hnc ⟨⟨hc.1.choose, List.mem_cons_of_mem _ hc.1.choose_spec.1,
                  hc.1.choose_spec.2⟩, hc.2⟩
          | floatT =>
              have hloop : setParamsLoop env s ((k1, v1) :: tl)
                  = setParamsLoop env (storeSet s k1 v1) tl := by
                simp [setParamsLoop, hku, hinj, hdp]
              obtain ⟨hnone, hpoint⟩ := ih (storeSet s k1 v1) htl
              rw [hloop]
              refine ⟨hnone, ?_⟩
              intro k
              constructor
              · rintro ⟨⟨p, hp, hpk⟩, hkni, hfl⟩
                rcases List.mem_cons.mp hp with heq | hmem
                · -- the head pair covers k: k = k1
                  have hk1 : k1 = k := by rw [heq] at hpk; exact hpk
                  by_cases hrest : (∃ p ∈ tl, p.1 = k) ∧ k ∉ env.injectKeys ∧
                      (env.dparams k = some VType.floatT ∨ env.dparams k = some VType.intT)
                  · exact (hpoint k).1 hrest
                  · rw [(hpoint k).2 hrest, storeSet, if_pos hk1.symm, hv1, hk1]
                · exact (hpoint k).1 ⟨⟨p, hmem, hpk⟩, hkni, hfl⟩
              · intro hnc
                have hkne : k ≠ k1 := by
                  intro he
                  exact hnc ⟨⟨(k1, v1), List.mem_cons_self _ _, he.symm⟩,
                    he ▸ hinj, by rw [he, hdp]; left; rfl⟩
                have hnrest : ¬((∃ p ∈ tl, p.1 = k) ∧ k ∉ env.injectKeys ∧
                    (env.dparams k = some VType.floatT ∨ env.dparams k = some VType.intT)) := by
                  intro hc
                  exact hnc ⟨⟨hc.1.choose, List.mem_cons_of_mem _ hc.1.choose_spec.1,
                    hc.1.choose_spec.2⟩, hc.2⟩
                rw [(hpoint k).2 hnrest, storeSet, if_neg hkne]
          | intT =>
              have hloop : setParamsLoop env s ((k1, v1) :: tl)
                  = setParamsLoop env (storeSet s k1 (truncQ v1)) tl := by
                simp [setParamsLoop, hku, hinj, hdp]
              obtain ⟨hnone, hpoint⟩ := ih (storeSet s k1 (truncQ v1)) htl
              rw [hloop]
              refine ⟨hnone, ?_⟩
              intro k
              constructor
              · rintro ⟨⟨p, hp, hpk⟩, hkni, hfl⟩
                rcases List.mem_cons.mp hp with heq | hmem
                · have hk1 : k1 = k := by rw [heq] at hpk; exact hpk
                  by_cases hrest : (∃ p ∈ tl, p.1 = k) ∧ k ∉ env.injectKeys ∧
                      (env.dparams k = some VType.floatT ∨ env.dparams k = some VType.intT)
                  · exact (hpoint k).1 hrest
                  · rw [(hpoint k).2 hrest, storeSet, if_pos hk1.symm, hv1,
                      hint k1 hdp, hk1]
                · exact (hpoint k).1 ⟨⟨p, hmem, hpk⟩, hkni, hfl⟩
              · intro hnc
                have hkne : k ≠ k1 := by
                  intro he
                  exact hnc ⟨⟨(k1, v1), List.mem_cons_self _ _, he.symm⟩,
                    he ▸ hinj, by rw [he, hdp]; right; rfl⟩
                have hnrest : ¬((∃ p ∈ tl, p.1 = k) ∧ k ∉ env.injectKeys ∧
                    (env.dparams k = some VType.floatT ∨ env.dparams k = some VType.intT)) := by
                  intro hc
                  exact hnc ⟨⟨hc.1.choose, List.mem_cons_of_mem _ hc.1.choose_spec.1,
                    hc.1.choose_spec.2⟩, hc.2⟩
                rw [(hpoint k).2 hnrest, storeSet, if_neg hkne]

theorem setParamsLoop_unchanged (env : GadrasEnv) :
    ∀ (ps : List (String × ℚ)) (s : String → ℚ) (k : String),
    (∀ p ∈ ps, ¬((strUpper p.1) = k ∧ (strUpper p.1) ∉ env.injectKeys ∧
        (env.dparams (strUpper p.1) = some VType.floatT ∨
         env.dparams (strUpper p.1) = some VType.intT))) →
    (setParamsLoop env s ps).1 k = s k := by
  intro ps
  induction ps with
  | nil => intro s k _; rfl
  | cons hd tl ih =>
      intro s k hps
      obtain ⟨k1, v1⟩ := hd
      have hhd := hps (k1, v1) (List.mem_cons_self _ _)
      have htl : ∀ p ∈ tl, ¬((strUpper p.1) = k ∧ (strUpper p.1) ∉ env.injectKeys ∧
          (env.dparams (strUpper p.1) = some VType.floatT ∨
           env.dparams (strUpper p.1) = some VType.intT)) :=
        fun p hp => hps p (List.mem_cons_of_mem _ hp)
      by_cases hinj : (strUpper k1) ∈ env.injectKeys
      · rw [show setParamsLoop env s ((k1, v1) :: tl) = setParamsLoop env s tl by
          simp [setParamsLoop, hinj]]
        exact ih s k htl
      · cases hdp : env.dparams (strUpper k1) with
        | none =>
            rw [show setParamsLoop env s ((k1, v1) :: tl) = (s, some PyErr.keyError) by
              simp [setParamsLoop, hinj, hdp]]
        | some vt =>
          cases vt with
          | otherT =>
              rw [show setParamsLoop env s ((k1, v1) :: tl) = setParamsLoop env s tl by
                simp [setParamsLoop, hinj, hdp]]
              exact ih s k htl
          | floatT =>
              have hne : (strUpper k1) ≠ k := by
                intro he
                exact hhd ⟨he, hinj, Or.inl hdp⟩
              rw [show setParamsLoop env s ((k1, v1) :: tl)
                  = setParamsLoop env (storeSet s (strUpper k1) v1) tl by
                simp [setParamsLoop, hinj, hdp]]
              rw [ih (storeSet s (strUpper k1) v1) k htl, storeSet, if_neg (Ne.symm hne)]
          | intT =>
              have hne : (strUpper k1) ≠ k := by
                intro he
                exact hhd ⟨he, hinj, Or.inr hdp⟩
              rw [show setParamsLoop env s ((k1, v1) :: tl)
                  = setParamsLoop env (storeSet s (strUpper k1) (truncQ v1)) tl by
                simp [setParamsLoop, hinj, hdp]]
              rw [ih (storeSet s (strUpper k1) (truncQ v1)) k htl, storeSet,
                if_neg (Ne.symm hne)]

/-- C9: with `dry_run=False`, `SeedSynthesizer.generate` restores the
GADRAS detector parameters to their original pre-call values on every exit
path — after a successful run, when the parameter-setting itself raises
(`KeyError` partway through), and when the injects raise — and in the
exception cases the original exception is re-raised after the restoration;
so the detector-parameter store is unchanged by the call overall.
(Hypotheses: the API's key list is upper-case and covers every settable key
of the new parameters, and int-typed parameters hold integral values.) -/
theorem C9_restores_parameters (env : GadrasEnv) (s0 : String → ℚ)
    (newParams : List (String × ℚ)) (injectOutcome : Option PyErr)
    (hcanon : ∀ k ∈ env.allKeys, (strUpper k) = k)
    (hcover : ∀ p ∈ newParams, (env.dparams (strUpper p.1)).isSome →
      (strUpper p.1) ∈ env.allKeys)
    (hint : ∀ k, env.dparams k = some VType.intT → truncQ (s0 k) = s0 k) :
    (∀ k, (seedSynthGenerate env s0 newParams injectOutcome).1 k = s0 k) ∧
    ((setParamsLoop env s0 newParams).2 = none → injectOutcome = none →
      (seedSynthGenerate env s0 newParams injectOutcome).2 = none) ∧
    (∀ e, (setParamsLoop env s0 newParams).2 = none → injectOutcome = some e →
      (seedSynthGenerate env s0 newParams injectOutcome).2 = some e) ∧
    (∀ e, (setParamsLoop env s0 newParams).2 = some e →
      (seedSynthGenerate env s0 newParams injectOutcome).2 = some e) := by
  have horigp : ∀ p ∈ getDetectorParameters env s0,
      p.2 = s0 p.1 ∧ (strUpper p.1) = p.1 ∧ (env.dparams p.1).isSome := by
    intro p hp
    have h := mem_getDetectorParameters env s0 p hp
    exact ⟨h.2.2, hcanon p.1 h.1, h.2.1⟩
  have hrest := fun s =>
    setParamsLoop_restore env s0 hint (getDetectorParameters env s0) s horigp
  have hfix : ∀ k, (setParamsLoop env (setParamsLoop env s0 newParams).1
      (getDetectorParameters env s0)).1 k = s0 k := by
    intro k
    by_cases hc : (∃ p ∈ getDetectorParameters env s0, p.1 = k) ∧
        k ∉ env.injectKeys ∧
        (env.dparams k = some VType.floatT ∨ env.dparams k = some VType.intT)
    · exact (((hrest _).2) k).1 hc
    · rw [(((hrest _).2) k).2 hc]
      apply setParamsLoop_unchanged
      intro p hp hcontra
      obtain ⟨hpk, hpinj, hpfl⟩ := hcontra
      have hsome : (env.dparams (strUpper p.1)).isSome := by
        rcases hpfl with h | h <;> simp [h]
      have hmem : k ∈ env.allKeys := by
        have := hcover p hp hsome
        rwa [hpk] at this
      have hksome : (env.dparams k).isSome := by rw [← hpk]; exact hsome
      have hkin : (k, s0 k) ∈ getDetectorParameters env s0 := by
        simp only [getDetectorParameters, List.mem_filterMap]
        exact ⟨k, hmem, by rw [if_pos hksome]⟩
      rw [hpk] at hpinj hpfl
      exact hc ⟨⟨(k, s0 k), hkin, rfl⟩, hpinj, hpfl⟩
  have hrnone : ∀ s : String → ℚ,
      (setParamsLoop env s (getDetectorParameters env s0)).2 = none :=
    fun s => (hrest s).1
  rcases hsp : setParamsLoop env s0 newParams with ⟨s1, e1⟩
  have hfix1 : ∀ k, (setParamsLoop env s1 (getDetectorParameters env s0)).1 k = s0 k := by
    intro k
    have := hfix k
    rwa [hsp] at this
  cases e1 with
  | none =>
      cases injectOutcome with
      | none =>
          refine ⟨?_, ?_, ?_, ?_⟩
          · intro k
            simp only [seedSynthGenerate, hsp]
            exact hfix1 k
          · intro _ _
            simp only [seedSynthGenerate, hsp]
            exact hrnone s1
          · intro e _ he
            cases he
          · intro e he
            simp at he
      | some e0 =>
          refine ⟨?_, ?_, ?_, ?_⟩
          · intro k
            simp only [seedSynthGenerate, hsp]
            exact hfix1 k
          · intro _ hinjo
            cases hinjo
          · intro e _ hinjo
            cases hinjo
            simp only [seedSynthGenerate, hsp]
            rw [hrnone s1]
            rfl
          · intro e he
            simp at he
  | some e1 =>
      refine ⟨?_, ?_, ?_, ?_⟩
      · intro k
        simp only [seedSynthGenerate, hsp]
        exact hfix1 k
      · intro hn
        simp at hn
      · intro e hn
        simp at hn
      · intro e he
        simp only at he
        cases he
        simp only [seedSynthGenerate, hsp]
        rw [hrnone s1]
        rfl

/-- C9 witness: the restoration theorem at a concrete one-key environment
with a failing inject: the parameter keeps its original value and the
inject's `ValueError` is re-raised. -/
theorem C9_restores_parameters_witness :
    (seedSynthGenerate envW s0W [("A", 5)] (some PyErr.valueError)).1 "A" = s0W "A" ∧
    (seedSynthGenerate envW s0W [("A", 5)] (some PyErr.valueError)).2
      = some PyErr.valueError := by
  have hcanon : ∀ k ∈ envW.allKeys, (strUpper k) = k := by
    intro k hk
    have : k = "A" := by simpa [envW] using hk
    rw [this]
    decide
  have hcover : ∀ p ∈ ([("A", (5 : ℚ))] : List (String × ℚ)),
      (envW.dparams (strUpper p.1)).isSome → (strUpper p.1) ∈ envW.allKeys := by
    intro p hp _
    have : p = ("A", (5 : ℚ)) := by simpa using hp
    rw [this]
    show (strUpper "A") ∈ envW.allKeys
    rw [show (strUpper "A") = "A" by decide]
    simp [envW]
  have hint : ∀ k, envW.dparams k = some VType.intT → truncQ (s0W k) = s0W k := by
    intro k h
    by_cases hk : k = "A" <;> simp [envW, hk] at h
  have h := C9_restores_parameters envW s0W [("A", 5)] (some PyErr.valueError) hcanon hcover hint
  exact ⟨h.1 "A", h.2.2.1 PyErr.valueError (by rfl) rfl⟩
